import Mathlib

/-!
SparkHistory controller: the reconciliation pass.

Shallow embedding of `internal/controller/sparkhistory_controller.go` and
`internal/controller/handler.go`.

* Go slices keep the distinction between the nil slice and a non-nil slice
  (`reflect.DeepEqual` observes it).
* Go `error` values are `Option Err` (`none` is `nil`).
* The object store behind `client.Client` is an arbitrary state type `σ` with
  one transition function per primitive; every call the controller issues is
  appended to a trace, so that "issues no update" is a statement about the trace.
* A nil-pointer dereference is an explicit outcome of a function.
-/

namespace Controller

/-! ## Go values -/

/-- Go slice. `Slice.nil` is the nil slice, `Slice.mk l` a non-nil slice with elements `l`
(`Slice.mk []` is the empty non-nil slice, written `[]T{}` in Go). -/
inductive Slice (α : Type) where
  | nil : Slice α
  | mk (elems : List α) : Slice α
deriving DecidableEq, Repr

/-- Elements of a slice, in order. -/
def Slice.toList {α : Type} : Slice α → List α
  | Slice.nil => []
  | Slice.mk l => l

/-- Go builtin `len`. -/
def Slice.len {α : Type} (s : Slice α) : Nat := s.toList.length

/-- Go builtin `append(s, x)` with one appended element: the result is never nil. -/
def Slice.append {α : Type} (s : Slice α) (x : α) : Slice α := Slice.mk (s.toList ++ [x])

/-- Go `reflect.DeepEqual` at type `[]string`: both nil, or both non-nil with the same
elements in the same order. -/
def DeepEqual (a b : Slice String) : Bool := decide (a = b)

/-- Go error value of the API machinery; `notFound` is what `errors.IsNotFound` reads. -/
structure Err where
  notFound : Bool
  msg : String
deriving DecidableEq, Repr

/-- The function `errors.IsNotFound` of apimachinery. -/
def IsNotFound (e : Err) : Bool := e.notFound

/-- The function `client.IgnoreNotFound`: nil for a not-found error, the error itself otherwise. -/
def IgnoreNotFound (e : Err) : Option Err := if IsNotFound e then none else some e

/-- Go map with string keys and values (labels, annotations, resource lists). -/
abbrev StrMap := List (String × String)

/-- Go map index expression `m[k]` at value type string-like: the zero value when absent. -/
def StrMap.index (m : StrMap) (k : String) : String := (m.lookup k).getD ""

/-! ## API types -/

/-- The type `types.NamespacedName`. -/
structure NamespacedName where
  ns : String
  name : String
deriving DecidableEq, Repr

/-- The type `corev1.ComponentCondition`. -/
structure ComponentCondition where
  type : String
  status : String
  message : String := ""
  error : String := ""
deriving DecidableEq, Repr

/-- The constant `corev1.ComponentHealthy`. -/
def ComponentHealthy : String := "Healthy"
/-- The constant `corev1.ConditionTrue`. -/
def ConditionTrue : String := "True"
/-- The constant `corev1.ConditionFalse`. -/
def ConditionFalse : String := "False"

/-- Persistence part of the SparkHistory spec (the fields the controller reads). -/
structure PersistenceSpec where
  storageClass : Option String
  accessModes : Slice String
  size : String
  volumeMode : Option String
deriving DecidableEq, Repr

/-- Service part of the SparkHistory spec. -/
structure ServiceSpec where
  port : Int
  annotations : StrMap
deriving DecidableEq, Repr

/-- Spec of a SparkHistory (the fields the controller reads). -/
structure SparkHistorySpec where
  replicas : Int
  persistence : PersistenceSpec
  service : ServiceSpec
  ingressHost : String
  resourceLimits : StrMap
  tolerations : Slice String
deriving DecidableEq, Repr

/-- The type `stackv1alpha1.SparkHistoryStatus`. -/
structure SparkHistoryStatus where
  nodes : Slice String
  conditions : Slice ComponentCondition
deriving DecidableEq, Repr

/-- The type `stackv1alpha1.SparkHistory`. -/
structure SparkHistory where
  name : String
  ns : String
  labels : StrMap
  spec : SparkHistorySpec
  status : SparkHistoryStatus
deriving DecidableEq, Repr

/-- The type `metav1.OwnerReference`. -/
structure OwnerReference where
  apiVersion : String
  kind : String
  name : String
  controller : Bool
deriving DecidableEq, Repr

/-- The type `metav1.ObjectMeta` (the fields the builders set). -/
structure ObjectMeta where
  name : String
  ns : String
  labels : StrMap
  annotations : StrMap := []
  ownerReferences : List OwnerReference := []
deriving DecidableEq, Repr

/-- The type `corev1.PersistentVolumeClaim`. -/
structure PersistentVolumeClaim where
  meta : ObjectMeta
  storageClassName : Option String
  accessModes : Slice String
  storageRequest : String
  volumeMode : Option String
deriving DecidableEq, Repr

/-- The type `networking/v1.Ingress` with one rule and one path. -/
structure Ingress where
  meta : ObjectMeta
  host : String
  path : String
  pathType : String
  backendServiceName : String
  backendServicePort : Int
deriving DecidableEq, Repr

/-- The type `corev1.Service` with one port. -/
structure Service where
  meta : ObjectMeta
  port : Int
  portName : String
  protocol : String
  selector : StrMap
  type : String
deriving DecidableEq, Repr

/-- The type `appsv1.Deployment` with one container, one port, one mount and one volume. -/
structure Deployment where
  meta : ObjectMeta
  replicas : Int
  selector : StrMap
  templateLabels : StrMap
  containerName : String
  image : String
  imagePullPolicy : String
  args : List String
  limitsCpu : String
  limitsMemory : String
  containerPort : Int
  portName : String
  protocol : String
  volumeMountName : String
  mountPath : String
  tolerations : Slice String
  volumeName : String
  claimName : String
deriving DecidableEq, Repr

/-- The type `corev1.Pod` (the controller reads the name only). -/
structure Pod where
  name : String
  ns : String := ""
  labels : StrMap := []
deriving DecidableEq, Repr

/-- Resource kinds the controller talks to the store about. -/
inductive Kind where
  | sparkHistory
  | persistentVolumeClaim
  | deployment
  | service
  | ingress
deriving DecidableEq, Repr

/-- A managed child object (`client.Object` restricted to the four kinds that are built). -/
inductive Object where
  | pvc (o : PersistentVolumeClaim)
  | deployment (o : Deployment)
  | service (o : Service)
  | ingress (o : Ingress)
deriving DecidableEq, Repr

/-- Kind of a child object. -/
def Object.kind : Object → Kind
  | Object.pvc _ => Kind.persistentVolumeClaim
  | Object.deployment _ => Kind.deployment
  | Object.service _ => Kind.service
  | Object.ingress _ => Kind.ingress

/-- Metadata of a child object. -/
def Object.meta : Object → ObjectMeta
  | Object.pvc o => o.meta
  | Object.deployment o => o.meta
  | Object.service o => o.meta
  | Object.ingress o => o.meta

/-- The function `client.ObjectKeyFromObject`. -/
def Object.key (o : Object) : NamespacedName := { ns := o.meta.ns, name := o.meta.name }

/-- Code of the repository that the two controller files call and that is declared outside
them, taken as parameters: the methods of the API types (`api/v1alpha1`) and the field merge
that the apply primitive performs on an object that already exists. -/
structure Api where
  GetLabels : SparkHistory → StrMap
  GetPvcName : SparkHistory → String
  GetSize : PersistenceSpec → String
  GetServiceType : SparkHistory → String
  GetImageTag : SparkHistory → String
  GetImagePullPolicy : SparkHistory → String
  GetNameWithSuffix : SparkHistory → String → String
  /-- Merge of the desired fields into the fetched object: `MergeObject current desired`. -/
  MergeObject : Object → Object → Object
  /-- The merged object has the static type of the desired one. -/
  MergeObject_kind : ∀ current desired, (MergeObject current desired).kind = desired.kind

/-- The type `runtime.Scheme`, observed only through `ctrl.SetControllerReference owner obj scheme`:
the call either fails or returns the object metadata with the owner reference set. -/
structure Scheme where
  SetControllerReference : SparkHistory → ObjectMeta → Except Err ObjectMeta

/-! ## The object store and the trace of calls -/

/-- The five store primitives behind `client.Client`, over an arbitrary store state `σ`.
Every primitive may fail and may change the store. -/
structure Client (σ : Type) where
  getSparkHistory : σ → NamespacedName → Except Err SparkHistory × σ
  getObject : σ → Kind → NamespacedName → Except Err Object × σ
  create : σ → Object → Option Err × σ
  update : σ → Object → Option Err × σ
  statusUpdate : σ → SparkHistory → Option Err × σ
  list : σ → String → StrMap → Except Err (List Pod) × σ

/-- One call issued to the store. -/
inductive Call where
  | get (kind : Kind) (key : NamespacedName)
  | create (obj : Object)
  | update (obj : Object)
  | statusUpdate (obj : SparkHistory)
  | list (ns : String) (selector : StrMap)
deriving DecidableEq, Repr

/-- The call is a status update. -/
def Call.isStatusUpdate : Call → Bool
  | Call.statusUpdate _ => true
  | _ => false

/-- The call is a pod list. -/
def Call.isList : Call → Bool
  | Call.list _ _ => true
  | _ => false

/-- The call is a get, create or update of an object of kind `k`. -/
def Call.touches (k : Kind) : Call → Bool
  | Call.get k1 _ => decide (k1 = k)
  | Call.create o => decide (o.kind = k)
  | Call.update o => decide (o.kind = k)
  | _ => false

/-- Store state together with the calls issued so far (oldest first). -/
structure World (σ : Type) where
  st : σ
  trace : List Call
deriving DecidableEq

/-- The type `SparkHistoryReconciler`. -/
structure SparkHistoryReconciler (σ : Type) where
  client : Client σ
  scheme : Scheme

/-- Result of a Go function that may dereference a nil pointer. -/
inductive Outcome (α : Type) where
  | returned (a : α) : Outcome α
  | nilDeref : Outcome α
deriving DecidableEq, Repr

/-- The type `ctrl.Result`. -/
structure Result where
  requeue : Bool := false
  requeueAfter : Nat := 0
deriving DecidableEq, Repr

section Calls
variable {σ : Type}

/-- The call `r.Get` on the SparkHistory. -/
def SparkHistoryReconciler.Get (r : SparkHistoryReconciler σ) (key : NamespacedName)
    (w : World σ) : Except Err SparkHistory × World σ :=
  ((r.client.getSparkHistory w.st key).1,
   { st := (r.client.getSparkHistory w.st key).2,
     trace := w.trace ++ [Call.get Kind.sparkHistory key] })

/-- The call `r.Client.Get` on a child object. -/
def SparkHistoryReconciler.GetObject (r : SparkHistoryReconciler σ) (k : Kind)
    (key : NamespacedName) (w : World σ) : Except Err Object × World σ :=
  ((r.client.getObject w.st k key).1,
   { st := (r.client.getObject w.st k key).2, trace := w.trace ++ [Call.get k key] })

/-- The call `r.Client.Create`. -/
def SparkHistoryReconciler.Create (r : SparkHistoryReconciler σ) (obj : Object)
    (w : World σ) : Option Err × World σ :=
  ((r.client.create w.st obj).1,
   { st := (r.client.create w.st obj).2, trace := w.trace ++ [Call.create obj] })

/-- The call `r.Client.Update`. -/
def SparkHistoryReconciler.Update (r : SparkHistoryReconciler σ) (obj : Object)
    (w : World σ) : Option Err × World σ :=
  ((r.client.update w.st obj).1,
   { st := (r.client.update w.st obj).2, trace := w.trace ++ [Call.update obj] })

/-- The call `r.Status().Update`. -/
def SparkHistoryReconciler.StatusUpdate (r : SparkHistoryReconciler σ) (obj : SparkHistory)
    (w : World σ) : Option Err × World σ :=
  ((r.client.statusUpdate w.st obj).1,
   { st := (r.client.statusUpdate w.st obj).2, trace := w.trace ++ [Call.statusUpdate obj] })

/-- The call `r.List` of pods in a namespace with a label selector. -/
def SparkHistoryReconciler.List (r : SparkHistoryReconciler σ) (ns : String) (sel : StrMap)
    (w : World σ) : Except Err (List Pod) × World σ :=
  ((r.client.list w.st ns sel).1,
   { st := (r.client.list w.st ns sel).2, trace := w.trace ++ [Call.list ns sel] })

end Calls

/-! ## handler.go -/

/-- Builder `makePVC`: `none` is the nil pointer returned when the owner reference cannot
be set. -/
def makePVC (api : Api) (inst : SparkHistory) (schema : Scheme) : Option PersistentVolumeClaim :=
  let labels := api.GetLabels inst
  let pvc : PersistentVolumeClaim :=
    { meta := { name := api.GetPvcName inst, ns := inst.ns, labels := labels }
      storageClassName := inst.spec.persistence.storageClass
      accessModes := inst.spec.persistence.accessModes
      storageRequest := api.GetSize inst.spec.persistence
      volumeMode := inst.spec.persistence.volumeMode }
  match schema.SetControllerReference inst pvc.meta with
  | Except.error _ => none
  | Except.ok m => some { pvc with meta := m }

/-- Builder `makeIngress`. -/
def makeIngress (api : Api) (inst : SparkHistory) (schema : Scheme) : Option Ingress :=
  let labels := api.GetLabels inst
  let ing : Ingress :=
    { meta := { name := inst.name, ns := inst.ns, labels := labels }
      host := inst.spec.ingressHost
      path := "/"
      pathType := "Prefix"
      backendServiceName := inst.name
      backendServicePort := inst.spec.service.port }
  match schema.SetControllerReference inst ing.meta with
  | Except.error _ => none
  | Except.ok m => some { ing with meta := m }

/-- Builder `makeService`. -/
def makeService (api : Api) (inst : SparkHistory) (schema : Scheme) : Option Service :=
  let labels := api.GetLabels inst
  let svc : Service :=
    { meta := { name := inst.name, ns := inst.ns, labels := labels,
                annotations := inst.spec.service.annotations }
      port := inst.spec.service.port
      portName := "http"
      protocol := "TCP"
      selector := labels
      type := api.GetServiceType inst }
  match schema.SetControllerReference inst svc.meta with
  | Except.error _ => none
  | Except.ok m => some { svc with meta := m }

/-- Builder `makeDeployment`. -/
def makeDeployment (api : Api) (inst : SparkHistory) (schema : Scheme) : Option Deployment :=
  let labels := api.GetLabels inst
  let dep : Deployment :=
    { meta := { name := inst.name, ns := inst.ns, labels := labels }
      replicas := inst.spec.replicas
      selector := labels
      templateLabels := labels
      containerName := inst.name
      image := api.GetImageTag inst
      imagePullPolicy := api.GetImagePullPolicy inst
      args := ["/opt/bitnami/spark/sbin/start-history-server.sh"]
      limitsCpu := inst.spec.resourceLimits.index "cpu"
      limitsMemory := inst.spec.resourceLimits.index "memory"
      containerPort := 18080
      portName := "http"
      protocol := "TCP"
      volumeMountName := api.GetNameWithSuffix inst "-data"
      mountPath := "/tmp/spark-events"
      tolerations := inst.spec.tolerations
      volumeName := api.GetNameWithSuffix inst "-data"
      claimName := api.GetPvcName inst }
  match schema.SetControllerReference inst dep.meta with
  | Except.error _ => none
  | Except.ok m => some { dep with meta := m }

section Handlers
variable {σ : Type}

/-- Modelled from the spec: `CreateOrUpdate`, the apply primitive of the controller package,
is called by the three reconcile steps below and is declared outside the two controller
files. Fetch by (namespace, name); on not-found create and return the creation error
unchanged; when present merge the desired fields into the fetched object and update,
returning the update error unchanged; any other fetch error is returned. -/
def CreateOrUpdate (r : SparkHistoryReconciler σ) (api : Api) (obj : Object)
    (w : World σ) : Option Err × World σ :=
  match (r.GetObject obj.kind obj.key w).1 with
  | Except.error err =>
    if IsNotFound err then r.Create obj (r.GetObject obj.kind obj.key w).2
    else (some err, (r.GetObject obj.kind obj.key w).2)
  | Except.ok current =>
    r.Update (api.MergeObject current obj) (r.GetObject obj.kind obj.key w).2

/-- Step `reconcilePVC`. The log line before the create reads `pvc.Namespace` and `pvc.Name`
through the pointer that `makePVC` returned. -/
def reconcilePVC (r : SparkHistoryReconciler σ) (api : Api) (inst : SparkHistory)
    (w : World σ) : Outcome (Option Err) × World σ :=
  let key : NamespacedName := { ns := inst.ns, name := api.GetPvcName inst }
  match (r.GetObject Kind.persistentVolumeClaim key w).1 with
  | Except.error err =>
    if IsNotFound err then
      match makePVC api inst r.scheme with
      | none => (Outcome.nilDeref, (r.GetObject Kind.persistentVolumeClaim key w).2)
      | some pvc =>
        match (r.Create (Object.pvc pvc) (r.GetObject Kind.persistentVolumeClaim key w).2).1 with
        | some err1 =>
          (Outcome.returned (some err1),
           (r.Create (Object.pvc pvc) (r.GetObject Kind.persistentVolumeClaim key w).2).2)
        | none =>
          (Outcome.returned none,
           (r.Create (Object.pvc pvc) (r.GetObject Kind.persistentVolumeClaim key w).2).2)
    else (Outcome.returned (some err), (r.GetObject Kind.persistentVolumeClaim key w).2)
  | Except.ok _ => (Outcome.returned none, (r.GetObject Kind.persistentVolumeClaim key w).2)

/-- Step `reconcileIngress`. -/
def reconcileIngress (r : SparkHistoryReconciler σ) (api : Api) (inst : SparkHistory)
    (w : World σ) : Option Err × World σ :=
  match makeIngress api inst r.scheme with
  | none => (none, w)
  | some obj =>
    match (CreateOrUpdate r api (Object.ingress obj) w).1 with
    | some err => (some err, (CreateOrUpdate r api (Object.ingress obj) w).2)
    | none => (none, (CreateOrUpdate r api (Object.ingress obj) w).2)

/-- Step `reconcileService`. -/
def reconcileService (r : SparkHistoryReconciler σ) (api : Api) (inst : SparkHistory)
    (w : World σ) : Option Err × World σ :=
  match makeService api inst r.scheme with
  | none => (none, w)
  | some obj =>
    match (CreateOrUpdate r api (Object.service obj) w).1 with
    | some err => (some err, (CreateOrUpdate r api (Object.service obj) w).2)
    | none => (none, (CreateOrUpdate r api (Object.service obj) w).2)

/-- Step `reconcileDeployment`. -/
def reconcileDeployment (r : SparkHistoryReconciler σ) (api : Api) (inst : SparkHistory)
    (w : World σ) : Option Err × World σ :=
  match makeDeployment api inst r.scheme with
  | none => (none, w)
  | some obj =>
    match (CreateOrUpdate r api (Object.deployment obj) w).1 with
    | some err => (some err, (CreateOrUpdate r api (Object.deployment obj) w).2)
    | none => (none, (CreateOrUpdate r api (Object.deployment obj) w).2)

end Handlers

/-! ## sparkhistory_controller.go -/

/-- Function `getPodNames`: starts from the nil slice and appends one name per pod. -/
def getPodNames (pods : List Pod) : Slice String :=
  pods.foldl (fun podNames pod => Slice.append podNames pod.name) Slice.nil

section Reconcile
variable {σ : Type}

/-- Post-check of `Reconcile` (lines 111-130): list the pods, compare their names with the
stored nodes and write the status when they are not deeply equal. `c` and `cs` are the
first condition and the remaining ones. -/
def postCheck (r : SparkHistoryReconciler σ) (api : Api) (sparkHistory : SparkHistory)
    (c : ComponentCondition) (cs : List ComponentCondition)
    (w : World σ) : Outcome (Result × Option Err) × World σ :=
  match (r.List sparkHistory.ns (api.GetLabels sparkHistory) w).1 with
  | Except.error err =>
    (Outcome.returned ({}, some err), (r.List sparkHistory.ns (api.GetLabels sparkHistory) w).2)
  | Except.ok items =>
    let podNames := getPodNames items
    if DeepEqual podNames sparkHistory.status.nodes = false then
      let updated : SparkHistory :=
        { sparkHistory with
          status := { nodes := podNames
                      conditions := Slice.mk ({ c with status := ConditionTrue } :: cs) } }
      match (r.StatusUpdate updated
              (r.List sparkHistory.ns (api.GetLabels sparkHistory) w).2).1 with
      | some err =>
        (Outcome.returned ({}, some err),
         (r.StatusUpdate updated (r.List sparkHistory.ns (api.GetLabels sparkHistory) w).2).2)
      | none =>
        (Outcome.returned ({}, none),
         (r.StatusUpdate updated (r.List sparkHistory.ns (api.GetLabels sparkHistory) w).2).2)
    else
      (Outcome.returned ({}, none), (r.List sparkHistory.ns (api.GetLabels sparkHistory) w).2)

/-- Child reconciliation of `Reconcile` (lines 91-109) followed by the post-check: the four
steps in source order, each returning its error at once. -/
def reconcileChildren (r : SparkHistoryReconciler σ) (api : Api) (sparkHistory : SparkHistory)
    (c : ComponentCondition) (cs : List ComponentCondition)
    (w : World σ) : Outcome (Result × Option Err) × World σ :=
  match (reconcilePVC r api sparkHistory w).1 with
  | Outcome.nilDeref => (Outcome.nilDeref, (reconcilePVC r api sparkHistory w).2)
  | Outcome.returned (some err) =>
    (Outcome.returned ({}, some err), (reconcilePVC r api sparkHistory w).2)
  | Outcome.returned none =>
    let w2 := (reconcilePVC r api sparkHistory w).2
    match (reconcileDeployment r api sparkHistory w2).1 with
    | some err => (Outcome.returned ({}, some err), (reconcileDeployment r api sparkHistory w2).2)
    | none =>
      let w3 := (reconcileDeployment r api sparkHistory w2).2
      match (reconcileService r api sparkHistory w3).1 with
      | some err => (Outcome.returned ({}, some err), (reconcileService r api sparkHistory w3).2)
      | none =>
        let w4 := (reconcileService r api sparkHistory w3).2
        match (reconcileIngress r api sparkHistory w4).1 with
        | some err =>
          (Outcome.returned ({}, some err), (reconcileIngress r api sparkHistory w4).2)
        | none => postCheck r api sparkHistory c cs (reconcileIngress r api sparkHistory w4).2

/-- Method `Reconcile`: one reconciliation pass for the request `req`. -/
def Reconcile (r : SparkHistoryReconciler σ) (api : Api) (req : NamespacedName)
    (w : World σ) : Outcome (Result × Option Err) × World σ :=
  match (r.Get req w).1 with
  | Except.error err =>
    match IgnoreNotFound err with
    | some _ => (Outcome.returned ({}, some err), (r.Get req w).2)
    | none => (Outcome.returned ({}, none), (r.Get req w).2)
  | Except.ok sparkHistory =>
    match sparkHistory.status.conditions.toList with
    | [] =>
      let updated : SparkHistory :=
        { sparkHistory with
          status := { nodes := Slice.mk []
                      conditions := Slice.append sparkHistory.status.conditions
                        { type := ComponentHealthy, status := ConditionFalse } } }
      match (r.StatusUpdate updated (r.Get req w).2).1 with
      | some err => (Outcome.returned ({}, some err), (r.StatusUpdate updated (r.Get req w).2).2)
      | none =>
        (Outcome.returned ({ requeue := true }, none),
         (r.StatusUpdate updated (r.Get req w).2).2)
    | c :: cs =>
      if c.status = ConditionTrue then
        let updated : SparkHistory :=
          { sparkHistory with
            status := { nodes := sparkHistory.status.nodes
                        conditions := Slice.mk ({ c with status := ConditionFalse } :: cs) } }
        match (r.StatusUpdate updated (r.Get req w).2).1 with
        | some err =>
          (Outcome.returned ({}, some err), (r.StatusUpdate updated (r.Get req w).2).2)
        | none =>
          (Outcome.returned ({ requeue := true }, none),
           (r.StatusUpdate updated (r.Get req w).2).2)
      else reconcileChildren r api sparkHistory c cs (r.Get req w).2

end Reconcile

/-! ## Statement vocabulary -/

/-- Calls issued between the world `w` and a later world `w1`. -/
def newCalls {σ : Type} (w w1 : World σ) : List Call := w1.trace.drop w.trace.length

/-- Objects written by the status updates of a list of calls, in order. -/
def statusUpdates : List Call → List SparkHistory
  | [] => []
  | Call.statusUpdate o :: cs => o :: statusUpdates cs
  | _ :: cs => statusUpdates cs

/-- Position of a kind in the order in which `Reconcile` handles the children. -/
def Kind.order : Kind → Nat
  | Kind.sparkHistory => 0
  | Kind.persistentVolumeClaim => 1
  | Kind.deployment => 2
  | Kind.service => 3
  | Kind.ingress => 4

/-- The call is a get, create or update of a child kind that `Reconcile` handles no later
than the kind `k`. -/
def Call.childUpTo (k : Kind) (c : Call) : Bool :=
  (decide (Kind.persistentVolumeClaim.order ≤ k.order) && c.touches Kind.persistentVolumeClaim) ||
  (decide (Kind.deployment.order ≤ k.order) && c.touches Kind.deployment) ||
  (decide (Kind.service.order ≤ k.order) && c.touches Kind.service) ||
  (decide (Kind.ingress.order ≤ k.order) && c.touches Kind.ingress)

/-- Between `w` and `w1` the trace grew by calls that all satisfy `p`. -/
def Issued {σ : Type} (p : Call → Bool) (w w1 : World σ) : Prop :=
  ∃ cs, w1.trace = w.trace ++ cs ∧ ∀ c ∈ cs, p c = true

/-- Starting from the world `w1`, the child step of kind `k` is the first one that returns an
error: every step before it in source order returned nil, and it returns `e` in world `wf`. -/
def childFailsAt {σ : Type} (r : SparkHistoryReconciler σ) (api : Api) (sh : SparkHistory)
    (w1 : World σ) (k : Kind) (e : Err) (wf : World σ) : Prop :=
  match k with
  | Kind.sparkHistory => False
  | Kind.persistentVolumeClaim => reconcilePVC r api sh w1 = (Outcome.returned (some e), wf)
  | Kind.deployment =>
    ∃ w2, reconcilePVC r api sh w1 = (Outcome.returned none, w2) ∧
      reconcileDeployment r api sh w2 = (some e, wf)
  | Kind.service =>
    ∃ w2 w3, reconcilePVC r api sh w1 = (Outcome.returned none, w2) ∧
      reconcileDeployment r api sh w2 = (none, w3) ∧
      reconcileService r api sh w3 = (some e, wf)
  | Kind.ingress =>
    ∃ w2 w3 w4, reconcilePVC r api sh w1 = (Outcome.returned none, w2) ∧
      reconcileDeployment r api sh w2 = (none, w3) ∧
      reconcileService r api sh w3 = (none, w4) ∧
      reconcileIngress r api sh w4 = (some e, wf)

/-- The three child steps that go through the apply primitive. -/
inductive ApplyStep where
  | deployment
  | service
  | ingress
deriving DecidableEq, Repr

/-- Metadata of the object on which the builder of the step calls `SetControllerReference`. -/
def ApplyStep.builtMeta (step : ApplyStep) (api : Api) (inst : SparkHistory) : ObjectMeta :=
  match step with
  | ApplyStep.deployment => { name := inst.name, ns := inst.ns, labels := api.GetLabels inst }
  | ApplyStep.service =>
    { name := inst.name, ns := inst.ns, labels := api.GetLabels inst,
      annotations := inst.spec.service.annotations }
  | ApplyStep.ingress => { name := inst.name, ns := inst.ns, labels := api.GetLabels inst }

/-- Result of the builder of the step (`makeDeployment`, `makeService`, `makeIngress`). -/
def ApplyStep.build (step : ApplyStep) (api : Api) (inst : SparkHistory) (schema : Scheme) :
    Option Object :=
  match step with
  | ApplyStep.deployment => (makeDeployment api inst schema).map Object.deployment
  | ApplyStep.service => (makeService api inst schema).map Object.service
  | ApplyStep.ingress => (makeIngress api inst schema).map Object.ingress

/-- The reconcile function of the step (`reconcileDeployment`, `reconcileService`,
`reconcileIngress`). -/
def ApplyStep.run {σ : Type} (step : ApplyStep) (r : SparkHistoryReconciler σ) (api : Api)
    (inst : SparkHistory) (w : World σ) : Option Err × World σ :=
  match step with
  | ApplyStep.deployment => reconcileDeployment r api inst w
  | ApplyStep.service => reconcileService r api inst w
  | ApplyStep.ingress => reconcileIngress r api inst w

/-! ## A scripted store for concrete runs -/

/-- Answers of a store double: each primitive answers from the script whatever its
arguments, and the store state counts the calls served. -/
structure Script where
  sparkHistory : Except Err SparkHistory
  object : Kind → Except Err Object
  createErr : Kind → Option Err
  updateErr : Kind → Option Err
  statusErr : Option Err
  pods : Except Err (List Pod)

/-- Client that answers from a script. -/
def Script.client (s : Script) : Client Nat where
  getSparkHistory := fun n _ => (s.sparkHistory, n + 1)
  getObject := fun n k _ => (s.object k, n + 1)
  create := fun n o => (s.createErr o.kind, n + 1)
  update := fun n o => (s.updateErr o.kind, n + 1)
  statusUpdate := fun n _ => (s.statusErr, n + 1)
  list := fun n _ _ => (s.pods, n + 1)

/-- Scheme in which the owner type is registered: the owner reference is appended. -/
def okScheme : Scheme where
  SetControllerReference := fun owner m =>
    Except.ok { m with ownerReferences :=
      m.ownerReferences ++ [{ apiVersion := "stack.zncdata.net/v1alpha1", kind := "SparkHistory",
                              name := owner.name, controller := true }] }

/-- Scheme in which the owner type is not registered: stamping always fails. -/
def badScheme : Scheme where
  SetControllerReference := fun _ _ => Except.error { notFound := false, msg := "no kind is registered" }

/-- Sample API methods. -/
def exApi : Api where
  GetLabels := fun sh => sh.labels
  GetPvcName := fun sh => sh.name
  GetSize := fun p => p.size
  GetServiceType := fun _ => "ClusterIP"
  GetImageTag := fun _ => "bitnami/spark:3.1.1"
  GetImagePullPolicy := fun _ => "IfNotPresent"
  GetNameWithSuffix := fun sh _ => sh.name
  MergeObject := fun _ desired => desired
  MergeObject_kind := fun _ _ => rfl

/-- Sample spec. -/
def exSpec : SparkHistorySpec where
  replicas := 1
  persistence := { storageClass := none, accessModes := Slice.mk ["ReadWriteOnce"],
                   size := "10Gi", volumeMode := none }
  service := { port := 18080, annotations := [] }
  ingressHost := "spark.example.com"
  resourceLimits := []
  tolerations := Slice.nil

/-- Sample SparkHistory with a given status. -/
def exInstance (st : SparkHistoryStatus) : SparkHistory where
  name := "sh"
  ns := "default"
  labels := [("app", "sh")]
  spec := exSpec
  status := st

/-- Sample request. -/
def exReq : NamespacedName := { ns := "default", name := "sh" }

/-- Sample live claim, with a size that differs from the sample spec. -/
def exLivePvc : Object :=
  Object.pvc { meta := { name := "sh", ns := "default", labels := [] }
               storageClassName := some "fast"
               accessModes := Slice.mk ["ReadOnlyMany"]
               storageRequest := "1Gi"
               volumeMode := none }

/-- Sample error that is not a not-found error. -/
def exErr : Err := { notFound := false, msg := "connection refused" }

/-- Sample not-found error. -/
def exNotFound : Err := { notFound := true, msg := "not found" }

/-- Initial world of the concrete runs. -/
def w0 : World Nat := { st := 0, trace := [] }

/-- Script without write failures: the SparkHistory answer, the child answers and the pods. -/
def exScript (sh : Except Err SparkHistory) (obj : Kind → Except Err Object)
    (pods : Except Err (List Pod)) : Script where
  sparkHistory := sh
  object := obj
  createErr := fun _ => none
  updateErr := fun _ => none
  statusErr := none
  pods := pods

/-- Reconciler over a scripted store. -/
def exReconciler (s : Script) (sc : Scheme) : SparkHistoryReconciler Nat where
  client := s.client
  scheme := sc

/-- Condition record Healthy/False. -/
def healthyFalse : ComponentCondition := { type := "Healthy", status := "False" }

/-- Condition record Healthy/True. -/
def healthyTrue : ComponentCondition := { type := "Healthy", status := "True" }

/-- A second condition record. -/
def otherCond : ComponentCondition := { type := "Other", status := "Unknown" }

/-- Status as the first-sight pass leaves it: empty non-nil nodes, Healthy/False. -/
def resetStatus : SparkHistoryStatus :=
  { nodes := Slice.mk [], conditions := Slice.mk [healthyFalse] }

/-- Store in which the claim exists and no other child does. -/
def onlyPvcExists : Kind → Except Err Object := fun k =>
  if k = Kind.persistentVolumeClaim then Except.ok exLivePvc else Except.error exNotFound

/-- Script in which the create of a Service fails and nothing else does. -/
def serviceCreateFails : Script where
  sparkHistory := Except.ok
    { name := "sh", ns := "default", labels := [("app", "sh")], spec := exSpec,
      status := { nodes := Slice.mk [], conditions := Slice.mk [healthyFalse] } }
  object := onlyPvcExists
  createErr := fun k => if k = Kind.service then some exErr else none
  updateErr := fun _ => none
  statusErr := none
  pods := Except.ok []

/-- Pods pod-a and pod-b, in that order. -/
def podsAB : List Pod := [{ name := "pod-a" }, { name := "pod-b" }]

/-- Pods pod-b and pod-a, in that order. -/
def podsBA : List Pod := [{ name := "pod-b" }, { name := "pod-a" }]

/-- Status with stored nodes pod-a, pod-b and condition Healthy/False. -/
def statusAB : SparkHistoryStatus :=
  { nodes := Slice.mk ["pod-a", "pod-b"], conditions := Slice.mk [healthyFalse] }

/-- Reconciler over a store where the claim exists, nothing fails, the SparkHistory has
status `st` and the listed pods are `pods`. -/
def exRun (st : SparkHistoryStatus) (pods : List Pod) (sc : Scheme) :
    SparkHistoryReconciler Nat :=
  exReconciler (exScript (Except.ok (exInstance st)) onlyPvcExists (Except.ok pods)) sc

/-- Status never written: nil nodes and nil conditions. -/
def unseenStatus : SparkHistoryStatus := { nodes := Slice.nil, conditions := Slice.nil }

/-! ## Theorems -/

section Theorems
variable {σ : Type}

/-! ### Slices and pod names -/

theorem getPodNames_foldl (pods : List Pod) (s : Slice String) :
    pods.foldl (fun podNames pod => Slice.append podNames pod.name) s =
      if pods = [] then s else Slice.mk (s.toList ++ pods.map Pod.name) := by
  induction pods generalizing s with
  | nil => simp
  | cons p ps ih =>
    rw [List.foldl_cons, ih]
    by_cases h : ps = []
    · subst h
      simp [Slice.append]
    · simp [h, Slice.append, Slice.toList]

theorem getPodNames_nil : getPodNames [] = Slice.nil := rfl

theorem getPodNames_cons (p : Pod) (ps : List Pod) :
    getPodNames (p :: ps) = Slice.mk (p.name :: ps.map Pod.name) := by
  unfold getPodNames
  rw [getPodNames_foldl]
  simp [Slice.toList]

theorem getPodNames_toList (pods : List Pod) :
    (getPodNames pods).toList = pods.map Pod.name := by
  cases pods with
  | nil => rfl
  | cons p ps => rw [getPodNames_cons]; rfl

/-- For a non-empty pod list, deep equality with the stored nodes is equality of the name
sequences. -/
theorem deepEqual_getPodNames_of_ne_nil (pods : List Pod) (nodes : Slice String)
    (hne : pods ≠ []) :
    DeepEqual (getPodNames pods) nodes = true ↔ pods.map Pod.name = nodes.toList := by
  cases pods with
  | nil => exact absurd rfl hne
  | cons p ps =>
    rw [getPodNames_cons]
    cases nodes with
    | nil => simp [DeepEqual, Slice.toList]
    | mk l => simp [DeepEqual, Slice.toList]

/-- Name sequences that differ are never deeply equal. -/
theorem deepEqual_false_of_names_ne (pods : List Pod) (nodes : Slice String)
    (hdiff : pods.map Pod.name ≠ nodes.toList) :
    DeepEqual (getPodNames pods) nodes = false := by
  by_contra h
  have h1 : getPodNames pods = nodes := by
    simpa [DeepEqual] using h
  exact hdiff (by rw [← h1, getPodNames_toList])

/-! ### Traces -/

theorem newCalls_append (w w1 : World σ) (cs : List Call) (h : w1.trace = w.trace ++ cs) :
    newCalls w w1 = cs := by
  simp [newCalls, h]

theorem statusUpdates_append (a b : List Call) :
    statusUpdates (a ++ b) = statusUpdates a ++ statusUpdates b := by
  induction a with
  | nil => rfl
  | cons c cs ih => cases c <;> simp [statusUpdates, ih]

theorem statusUpdates_eq_nil (cs : List Call) (h : ∀ c ∈ cs, c.isStatusUpdate = false) :
    statusUpdates cs = [] := by
  induction cs with
  | nil => rfl
  | cons c cs ih =>
    have hc := h c (List.mem_cons_self c cs)
    have hcs : ∀ d ∈ cs, d.isStatusUpdate = false := fun d hd => h d (List.mem_cons_of_mem c hd)
    cases c <;> simp_all [statusUpdates, Call.isStatusUpdate]

theorem Issued.refl (p : Call → Bool) (w : World σ) : Issued p w w :=
  ⟨[], by simp, by simp⟩

theorem Issued.trans {p : Call → Bool} {w w1 w2 : World σ} (h1 : Issued p w w1)
    (h2 : Issued p w1 w2) : Issued p w w2 := by
  obtain ⟨cs1, e1, a1⟩ := h1
  obtain ⟨cs2, e2, a2⟩ := h2
  refine ⟨cs1 ++ cs2, by rw [e2, e1, List.append_assoc], ?_⟩
  intro c hc
  rcases List.mem_append.mp hc with h | h
  · exact a1 c h
  · exact a2 c h

theorem Issued.mono {p q : Call → Bool} {w w1 : World σ} (h : Issued p w w1)
    (hpq : ∀ c, p c = true → q c = true) : Issued q w w1 := by
  obtain ⟨cs, e, a⟩ := h
  exact ⟨cs, e, fun c hc => hpq c (a c hc)⟩

/-- The apply primitive only gets, creates or updates an object of the kind it is given. -/
theorem CreateOrUpdate_issued (r : SparkHistoryReconciler σ) (api : Api) (obj : Object)
    (w : World σ) : Issued (Call.touches obj.kind) w (CreateOrUpdate r api obj w).2 := by
  unfold CreateOrUpdate SparkHistoryReconciler.GetObject
  cases hg : (r.client.getObject w.st obj.kind obj.key).1 with
  | error err =>
    by_cases hnf : IsNotFound err = true
    · simp only [hnf, if_true, SparkHistoryReconciler.Create]
      exact ⟨[Call.get obj.kind obj.key, Call.create obj], by simp, by simp [Call.touches]⟩
    · simp only [hnf]
      exact ⟨[Call.get obj.kind obj.key], by simp, by simp [Call.touches]⟩
  | ok current =>
    simp only [SparkHistoryReconciler.Update]
    exact ⟨[Call.get obj.kind obj.key, Call.update (api.MergeObject current obj)], by simp,
      by simp [Call.touches, api.MergeObject_kind]⟩

theorem reconcilePVC_issued (r : SparkHistoryReconciler σ) (api : Api) (inst : SparkHistory)
    (w : World σ) :
    Issued (Call.touches Kind.persistentVolumeClaim) w (reconcilePVC r api inst w).2 := by
  simp only [reconcilePVC, SparkHistoryReconciler.GetObject, SparkHistoryReconciler.Create]
  split
  · split
    · split
      · exact ⟨[_], rfl, by simp [Call.touches]⟩
      · split <;>
          exact ⟨_, List.append_assoc _ _ _, by simp [Call.touches, Object.kind]⟩
    · exact ⟨[_], rfl, by simp [Call.touches]⟩
  · exact ⟨[_], rfl, by simp [Call.touches]⟩

theorem reconcileDeployment_issued (r : SparkHistoryReconciler σ) (api : Api)
    (inst : SparkHistory) (w : World σ) :
    Issued (Call.touches Kind.deployment) w (reconcileDeployment r api inst w).2 := by
  unfold reconcileDeployment
  cases hm : makeDeployment api inst r.scheme with
  | none => exact Issued.refl _ w
  | some obj =>
    have h := CreateOrUpdate_issued r api (Object.deployment obj) w
    cases hc : (CreateOrUpdate r api (Object.deployment obj) w).1 <;> simpa [hc] using h

theorem reconcileService_issued (r : SparkHistoryReconciler σ) (api : Api)
    (inst : SparkHistory) (w : World σ) :
    Issued (Call.touches Kind.service) w (reconcileService r api inst w).2 := by
  unfold reconcileService
  cases hm : makeService api inst r.scheme with
  | none => exact Issued.refl _ w
  | some obj =>
    have h := CreateOrUpdate_issued r api (Object.service obj) w
    cases hc : (CreateOrUpdate r api (Object.service obj) w).1 <;> simpa [hc] using h

theorem reconcileIngress_issued (r : SparkHistoryReconciler σ) (api : Api)
    (inst : SparkHistory) (w : World σ) :
    Issued (Call.touches Kind.ingress) w (reconcileIngress r api inst w).2 := by
  unfold reconcileIngress
  cases hm : makeIngress api inst r.scheme with
  | none => exact Issued.refl _ w
  | some obj =>
    have h := CreateOrUpdate_issued r api (Object.ingress obj) w
    cases hc : (CreateOrUpdate r api (Object.ingress obj) w).1 <;> simpa [hc] using h

/-- A call of a child kind is neither a status update nor a pod list, and touches no kind
that is handled later. -/
theorem childUpTo_spec (k : Kind) (c : Call) (h : c.childUpTo k = true) :
    c.isStatusUpdate = false ∧ c.isList = false ∧
      ∀ k1 : Kind, k.order < k1.order → c.touches k1 = false := by
  cases c with
  | get k0 key =>
    refine ⟨rfl, rfl, ?_⟩
    intro k1 hlt
    cases k <;> cases k0 <;> cases k1 <;>
      simp_all [Call.childUpTo, Call.touches, Kind.order]
  | create o =>
    refine ⟨rfl, rfl, ?_⟩
    intro k1 hlt
    cases k <;> cases o <;> cases k1 <;>
      simp_all [Call.childUpTo, Call.touches, Kind.order, Object.kind]
  | update o =>
    refine ⟨rfl, rfl, ?_⟩
    intro k1 hlt
    cases k <;> cases o <;> cases k1 <;>
      simp_all [Call.childUpTo, Call.touches, Kind.order, Object.kind]
  | statusUpdate o => simp [Call.childUpTo, Call.touches] at h
  | list ns sel => simp [Call.childUpTo, Call.touches] at h

theorem touches_childUpTo (k0 k : Kind) (h0 : 1 ≤ k0.order) (hle : k0.order ≤ k.order)
    (c : Call) (h : c.touches k0 = true) : c.childUpTo k = true := by
  cases k0 <;> cases k <;> simp_all [Call.childUpTo, Kind.order]

/-! ### The pass up to the post-check -/

/-- After a successful fetch with a first condition that is not True, and four child steps
that return nil, `Reconcile` is the post-check run in the world the Ingress step left. -/
theorem reconcile_reaches_postCheck (r : SparkHistoryReconciler σ) (api : Api)
    (req : NamespacedName) (w : World σ) (sh : SparkHistory) (c : ComponentCondition)
    (cs : List ComponentCondition) (s1 : σ) (w2 w3 w4 w5 : World σ)
    (hget : r.client.getSparkHistory w.st req = (Except.ok sh, s1))
    (hcond : sh.status.conditions.toList = c :: cs)
    (hnt : c.status ≠ "True")
    (hpvc : reconcilePVC r api sh
        { st := s1, trace := w.trace ++ [Call.get Kind.sparkHistory req] } =
          (Outcome.returned none, w2))
    (hdep : reconcileDeployment r api sh w2 = (none, w3))
    (hsvc : reconcileService r api sh w3 = (none, w4))
    (hing : reconcileIngress r api sh w4 = (none, w5)) :
    Reconcile r api req w = postCheck r api sh c cs w5 := by
  unfold Reconcile SparkHistoryReconciler.Get
  simp only [hget, hcond, ConditionTrue, hnt, if_false]
  unfold reconcileChildren
  simp only [hpvc, hdep, hsvc, hing]

/-- The four child steps only issue calls on the four child kinds. -/
theorem children_issued (r : SparkHistoryReconciler σ) (api : Api) (sh : SparkHistory)
    (w1 w2 w3 w4 w5 : World σ) (rp : Outcome (Option Err)) (rd rs ri : Option Err)
    (hpvc : reconcilePVC r api sh w1 = (rp, w2))
    (hdep : reconcileDeployment r api sh w2 = (rd, w3))
    (hsvc : reconcileService r api sh w3 = (rs, w4))
    (hing : reconcileIngress r api sh w4 = (ri, w5)) :
    Issued (Call.childUpTo Kind.persistentVolumeClaim) w1 w2 ∧
    Issued (Call.childUpTo Kind.deployment) w1 w3 ∧
    Issued (Call.childUpTo Kind.service) w1 w4 ∧
    Issued (Call.childUpTo Kind.ingress) w1 w5 := by
  have h1 := reconcilePVC_issued r api sh w1
  have h2 := reconcileDeployment_issued r api sh w2
  have h3 := reconcileService_issued r api sh w3
  have h4 := reconcileIngress_issued r api sh w4
  rw [hpvc] at h1
  rw [hdep] at h2
  rw [hsvc] at h3
  rw [hing] at h4
  have a1 : Issued (Call.childUpTo Kind.persistentVolumeClaim) w1 w2 :=
    h1.mono (touches_childUpTo _ _ (by decide) (by decide))
  have a2 : Issued (Call.childUpTo Kind.deployment) w1 w3 :=
    (h1.mono (touches_childUpTo _ _ (by decide) (by decide))).trans
      (h2.mono (touches_childUpTo _ _ (by decide) (by decide)))
  have a3 : Issued (Call.childUpTo Kind.service) w1 w4 :=
    ((h1.mono (touches_childUpTo _ _ (by decide) (by decide))).trans
      (h2.mono (touches_childUpTo _ _ (by decide) (by decide)))).trans
      (h3.mono (touches_childUpTo _ _ (by decide) (by decide)))
  have a4 : Issued (Call.childUpTo Kind.ingress) w1 w5 :=
    (((h1.mono (touches_childUpTo _ _ (by decide) (by decide))).trans
      (h2.mono (touches_childUpTo _ _ (by decide) (by decide)))).trans
      (h3.mono (touches_childUpTo _ _ (by decide) (by decide)))).trans
      (h4.mono (touches_childUpTo _ _ (by decide) (by decide)))
  exact ⟨a1, a2, a3, a4⟩

/-- Post-check when the pod names are not deeply equal to the stored nodes: the list and one
status update are issued, and the result carries whatever the update returned. -/
theorem postCheck_write (r : SparkHistoryReconciler σ) (api : Api) (sh : SparkHistory)
    (c : ComponentCondition) (cs : List ComponentCondition) (w5 : World σ) (pods : List Pod)
    (s6 s7 : σ) (ures : Option Err)
    (hlist : r.client.list w5.st sh.ns (api.GetLabels sh) = (Except.ok pods, s6))
    (hneq : DeepEqual (getPodNames pods) sh.status.nodes = false)
    (hupd : r.client.statusUpdate s6
        { sh with status :=
            { nodes := getPodNames pods
              conditions := Slice.mk ({ c with status := "True" } :: cs) } } = (ures, s7)) :
    postCheck r api sh c cs w5 =
      (Outcome.returned ({ requeue := false, requeueAfter := 0 }, ures),
       { st := s7
         trace := w5.trace ++
           [Call.list sh.ns (api.GetLabels sh),
            Call.statusUpdate
              { sh with status :=
                  { nodes := getPodNames pods
                    conditions := Slice.mk ({ c with status := "True" } :: cs) } }] }) := by
  unfold postCheck SparkHistoryReconciler.List
  simp only [hlist, hneq, if_true, ConditionTrue, SparkHistoryReconciler.StatusUpdate, hupd,
    List.append_assoc, List.singleton_append]
  cases ures <;> rfl

/-- Post-check when the pod names are deeply equal to the stored nodes: only the list is
issued. -/
theorem postCheck_skip (r : SparkHistoryReconciler σ) (api : Api) (sh : SparkHistory)
    (c : ComponentCondition) (cs : List ComponentCondition) (w5 : World σ) (pods : List Pod)
    (s6 : σ)
    (hlist : r.client.list w5.st sh.ns (api.GetLabels sh) = (Except.ok pods, s6))
    (heq : DeepEqual (getPodNames pods) sh.status.nodes = true) :
    postCheck r api sh c cs w5 =
      (Outcome.returned ({ requeue := false, requeueAfter := 0 }, none),
       { st := s6, trace := w5.trace ++ [Call.list sh.ns (api.GetLabels sh)] }) := by
  unfold postCheck SparkHistoryReconciler.List
  simp [hlist, heq]

/-- The post-check always issues the pod list first. -/
theorem postCheck_lists (r : SparkHistoryReconciler σ) (api : Api) (sh : SparkHistory)
    (c : ComponentCondition) (cs : List ComponentCondition) (w5 : World σ) :
    ∃ rest, (postCheck r api sh c cs w5).2.trace =
      w5.trace ++ Call.list sh.ns (api.GetLabels sh) :: rest := by
  simp only [postCheck, SparkHistoryReconciler.List, SparkHistoryReconciler.StatusUpdate]
  split
  · exact ⟨[], rfl⟩
  · split
    · split <;> exact ⟨_, List.append_assoc _ _ _⟩
    · exact ⟨[], rfl⟩

/-- Calls issued by child steps after the fetch: none is a status update or a pod list, and
none touches a kind handled after `k`. -/
theorem issued_from_fetch (w : World σ) (s1 : σ) (req : NamespacedName) (k : Kind)
    (wf : World σ)
    (h : Issued (Call.childUpTo k)
        { st := s1, trace := w.trace ++ [Call.get Kind.sparkHistory req] } wf) :
    ∃ calls, wf.trace = w.trace ++ Call.get Kind.sparkHistory req :: calls ∧
      (∀ c ∈ calls, c.isStatusUpdate = false ∧ c.isList = false ∧
        ∀ k1 : Kind, k.order < k1.order → c.touches k1 = false) ∧
      statusUpdates (Call.get Kind.sparkHistory req :: calls) = [] := by
  obtain ⟨calls, e, a⟩ := h
  refine ⟨calls, by simpa using e, fun c hc => childUpTo_spec k c (a c hc), ?_⟩
  have : statusUpdates calls = [] :=
    statusUpdates_eq_nil calls (fun c hc => (childUpTo_spec k c (a c hc)).1)
  simpa [statusUpdates] using this

/-! ### Claims -/

/-- C9. Deleted resource: when the get of the SparkHistory fails with error `e`, `Reconcile`
returns `Result{}` with a nil error if `e` is a not-found error and with `e` itself otherwise;
the get is the only call of the pass (no create, update, status update or list). -/
theorem reconcile_fetch_error (r : SparkHistoryReconciler σ) (api : Api) (req : NamespacedName)
    (w : World σ) (e : Err) (s1 : σ)
    (hget : r.client.getSparkHistory w.st req = (Except.error e, s1)) :
    Reconcile r api req w =
      (Outcome.returned ({ requeue := false, requeueAfter := 0 },
         if IsNotFound e = true then none else some e),
       { st := s1, trace := w.trace ++ [Call.get Kind.sparkHistory req] }) := by
  unfold Reconcile SparkHistoryReconciler.Get
  simp only [hget, IgnoreNotFound]
  by_cases h : IsNotFound e = true <;> simp [h]

/-- Concrete run for C9 with a not-found error. -/
theorem reconcile_fetch_error_witness :
    Reconcile (exReconciler (exScript (Except.error exNotFound) (fun _ => Except.error exNotFound)
        (Except.ok [])) okScheme) exApi exReq w0 =
      (Outcome.returned ({ requeue := false, requeueAfter := 0 },
         if IsNotFound exNotFound = true then none else some exNotFound),
       { st := 1, trace := w0.trace ++ [Call.get Kind.sparkHistory exReq] }) :=
  reconcile_fetch_error _ exApi exReq w0 exNotFound 1 rfl

/-- C1. First sight: when the fetched SparkHistory has an empty condition list and the status
update succeeds, the pass issues exactly two calls, the get and one status update whose Nodes
is the empty non-nil list and whose Conditions is the single record Healthy/False, and
returns `Result{Requeue: true}` with a nil error. No child object is fetched, created or
updated and no pod list is issued. -/
theorem reconcile_first_sight (r : SparkHistoryReconciler σ) (api : Api) (req : NamespacedName)
    (w : World σ) (sh : SparkHistory) (s1 s2 : σ)
    (hget : r.client.getSparkHistory w.st req = (Except.ok sh, s1))
    (hempty : sh.status.conditions.len = 0)
    (hupd : r.client.statusUpdate s1
        { sh with status :=
            { nodes := Slice.mk []
              conditions := Slice.mk [{ type := "Healthy", status := "False",
                                        message := "", error := "" }] } } = (none, s2)) :
    Reconcile r api req w =
      (Outcome.returned ({ requeue := true, requeueAfter := 0 }, none),
       { st := s2
         trace := w.trace ++
           [Call.get Kind.sparkHistory req,
            Call.statusUpdate
              { sh with status :=
                  { nodes := Slice.mk []
                    conditions := Slice.mk [{ type := "Healthy", status := "False",
                                              message := "", error := "" }] } }] }) := by
  have hnil : sh.status.conditions.toList = [] := by
    simpa [Slice.len] using hempty
  unfold Reconcile SparkHistoryReconciler.Get
  simp only [hget, hnil, SparkHistoryReconciler.StatusUpdate, Slice.append, List.nil_append,
    ComponentHealthy, ConditionFalse, hupd, List.append_assoc, List.singleton_append]

/-- Concrete run for C1: a SparkHistory with a nil condition list. -/
theorem reconcile_first_sight_witness :
    Reconcile (exReconciler (exScript (Except.ok (exInstance unseenStatus))
        (fun _ => Except.error exNotFound) (Except.ok [])) okScheme) exApi exReq w0 =
      (Outcome.returned ({ requeue := true, requeueAfter := 0 }, none),
       { st := 2
         trace := w0.trace ++
           [Call.get Kind.sparkHistory exReq,
            Call.statusUpdate
              { exInstance unseenStatus with status :=
                  { nodes := Slice.mk []
                    conditions := Slice.mk [{ type := "Healthy", status := "False",
                                              message := "", error := "" }] } }] }) :=
  reconcile_first_sight _ exApi exReq w0 (exInstance unseenStatus) 1 2 rfl rfl rfl

/-- C2. Reset on True: when the fetched SparkHistory has a non-empty condition list whose
first condition is True and the status update succeeds, the pass issues exactly two calls,
the get and one status update that writes the first condition as False and leaves Nodes and
the remaining conditions as fetched, and returns `Result{Requeue: true}` with a nil error.
No child object is fetched, created or updated and no pod list is issued. -/
theorem reconcile_reset_on_true (r : SparkHistoryReconciler σ) (api : Api)
    (req : NamespacedName) (w : World σ) (sh : SparkHistory) (c : ComponentCondition)
    (cs : List ComponentCondition) (s1 s2 : σ)
    (hget : r.client.getSparkHistory w.st req = (Except.ok sh, s1))
    (hcond : sh.status.conditions.toList = c :: cs)
    (htrue : c.status = "True")
    (hupd : r.client.statusUpdate s1
        { sh with status :=
            { nodes := sh.status.nodes
              conditions := Slice.mk ({ c with status := "False" } :: cs) } } = (none, s2)) :
    Reconcile r api req w =
      (Outcome.returned ({ requeue := true, requeueAfter := 0 }, none),
       { st := s2
         trace := w.trace ++
           [Call.get Kind.sparkHistory req,
            Call.statusUpdate
              { sh with status :=
                  { nodes := sh.status.nodes
                    conditions := Slice.mk ({ c with status := "False" } :: cs) } }] }) := by
  unfold Reconcile SparkHistoryReconciler.Get
  simp only [hget, hcond, htrue, ConditionTrue, ConditionFalse, if_true,
    SparkHistoryReconciler.StatusUpdate, hupd, List.append_assoc, List.singleton_append]

/-- Concrete run for C2: stored nodes pod-a, conditions Healthy/True and a second record. -/
theorem reconcile_reset_on_true_witness :
    Reconcile (exReconciler (exScript
        (Except.ok (exInstance { nodes := Slice.mk ["pod-a"],
                                 conditions := Slice.mk [healthyTrue, otherCond] }))
        (fun _ => Except.error exNotFound) (Except.ok [])) okScheme) exApi exReq w0 =
      (Outcome.returned ({ requeue := true, requeueAfter := 0 }, none),
       { st := 2
         trace := w0.trace ++
           [Call.get Kind.sparkHistory exReq,
            Call.statusUpdate
              { exInstance { nodes := Slice.mk ["pod-a"],
                             conditions := Slice.mk [healthyTrue, otherCond] } with status :=
                  { nodes := Slice.mk ["pod-a"]
                    conditions := Slice.mk [{ healthyTrue with status := "False" },
                                            otherCond] } }] }) :=
  reconcile_reset_on_true _ exApi exReq w0
    (exInstance { nodes := Slice.mk ["pod-a"], conditions := Slice.mk [healthyTrue, otherCond] })
    healthyTrue [otherCond] 1 2 rfl rfl rfl rfl

/-- C3. Create-only storage claim: when the get of the claim named `GetPvcName` in the
instance namespace succeeds, `reconcilePVC` returns nil and the get is its only call:
no create and no update is issued, whatever the live claim `live` and the spec of the
instance are. -/
theorem reconcilePVC_existing_untouched (r : SparkHistoryReconciler σ) (api : Api)
    (inst : SparkHistory) (w : World σ) (live : Object) (s1 : σ)
    (hget : r.client.getObject w.st Kind.persistentVolumeClaim
        { ns := inst.ns, name := api.GetPvcName inst } = (Except.ok live, s1)) :
    reconcilePVC r api inst w =
      (Outcome.returned none,
       { st := s1
         trace := w.trace ++
           [Call.get Kind.persistentVolumeClaim
              { ns := inst.ns, name := api.GetPvcName inst }] }) := by
  unfold reconcilePVC SparkHistoryReconciler.GetObject
  simp only [hget]

/-- Concrete run for C3: the live claim has another size, class and access mode than the
spec asks for. -/
theorem reconcilePVC_existing_untouched_witness :
    reconcilePVC (exReconciler (exScript (Except.error exNotFound) (fun _ => Except.ok exLivePvc)
        (Except.ok [])) okScheme) exApi (exInstance resetStatus) w0 =
      (Outcome.returned none,
       { st := 1
         trace := w0.trace ++
           [Call.get Kind.persistentVolumeClaim
              { ns := (exInstance resetStatus).ns,
                name := exApi.GetPvcName (exInstance resetStatus) }] }) :=
  reconcilePVC_existing_untouched _ exApi (exInstance resetStatus) w0 exLivePvc 1 rfl

/-- C8. What the code does where the claim expects a skip: when the get of the claim fails
with a not-found error and `SetControllerReference` fails on the claim being built,
`makePVC` returns nil and `reconcilePVC` dereferences it in the log line before the create;
the step does not return, no create is issued, and the surrounding child reconciliation
stops with the same nil dereference instead of reaching the Deployment step. -/
theorem reconcilePVC_nil_builder_derefs (r : SparkHistoryReconciler σ) (api : Api)
    (inst : SparkHistory) (c : ComponentCondition) (cs : List ComponentCondition)
    (w : World σ) (e e1 : Err) (s1 : σ)
    (hget : r.client.getObject w.st Kind.persistentVolumeClaim
        { ns := inst.ns, name := api.GetPvcName inst } = (Except.error e, s1))
    (hnf : IsNotFound e = true)
    (hscr : r.scheme.SetControllerReference inst
        { name := api.GetPvcName inst, ns := inst.ns, labels := api.GetLabels inst } =
          Except.error e1) :
    makePVC api inst r.scheme = none ∧
    reconcilePVC r api inst w =
      (Outcome.nilDeref,
       { st := s1
         trace := w.trace ++
           [Call.get Kind.persistentVolumeClaim
              { ns := inst.ns, name := api.GetPvcName inst }] }) ∧
    reconcileChildren r api inst c cs w =
      (Outcome.nilDeref,
       { st := s1
         trace := w.trace ++
           [Call.get Kind.persistentVolumeClaim
              { ns := inst.ns, name := api.GetPvcName inst }] }) := by
  have hmk : makePVC api inst r.scheme = none := by
    unfold makePVC
    simp only [hscr]
  have hstep : reconcilePVC r api inst w =
      (Outcome.nilDeref,
       { st := s1
         trace := w.trace ++
           [Call.get Kind.persistentVolumeClaim
              { ns := inst.ns, name := api.GetPvcName inst }] }) := by
    unfold reconcilePVC SparkHistoryReconciler.GetObject
    simp only [hget, hnf, if_true, hmk]
  refine ⟨hmk, hstep, ?_⟩
  unfold reconcileChildren
  simp only [hstep]

/-- Concrete run for C8: the claim does not exist and the scheme cannot stamp the owner. -/
theorem reconcilePVC_nil_builder_derefs_witness :
    makePVC exApi (exInstance resetStatus) badScheme = none ∧
    reconcilePVC (exReconciler (exScript (Except.ok (exInstance resetStatus))
        (fun _ => Except.error exNotFound) (Except.ok [])) badScheme) exApi
        (exInstance resetStatus) w0 =
      (Outcome.nilDeref,
       { st := 1
         trace := w0.trace ++
           [Call.get Kind.persistentVolumeClaim
              { ns := (exInstance resetStatus).ns,
                name := exApi.GetPvcName (exInstance resetStatus) }] }) ∧
    reconcileChildren (exReconciler (exScript (Except.ok (exInstance resetStatus))
        (fun _ => Except.error exNotFound) (Except.ok [])) badScheme) exApi
        (exInstance resetStatus) healthyFalse [] w0 =
      (Outcome.nilDeref,
       { st := 1
         trace := w0.trace ++
           [Call.get Kind.persistentVolumeClaim
              { ns := (exInstance resetStatus).ns,
                name := exApi.GetPvcName (exInstance resetStatus) }] }) :=
  reconcilePVC_nil_builder_derefs (exReconciler (exScript (Except.ok (exInstance resetStatus))
      (fun _ => Except.error exNotFound) (Except.ok [])) badScheme) exApi
    (exInstance resetStatus) healthyFalse [] w0 exNotFound
    { notFound := false, msg := "no kind is registered" } 1 rfl rfl rfl

/-- C4. Fail-fast ordering: in a pass that reaches child reconciliation (fetch succeeded,
condition list non-empty, first condition not True), let `k` be the first of the steps PVC,
Deployment, Service, Ingress, taken in that order, that returns an error `e`, in world `wf`.
Then `Reconcile` returns `Result{}` with `e` unchanged and stops in `wf`: after the fetch it
issued only calls on child kinds up to `k`, hence no call of a later step (no Ingress call
when the Service step fails), no pod list and no status update. -/
theorem reconcile_fail_fast (r : SparkHistoryReconciler σ) (api : Api) (req : NamespacedName)
    (w : World σ) (sh : SparkHistory) (c : ComponentCondition) (cs : List ComponentCondition)
    (s1 : σ) (k : Kind) (e : Err) (wf : World σ)
    (hget : r.client.getSparkHistory w.st req = (Except.ok sh, s1))
    (hcond : sh.status.conditions.toList = c :: cs)
    (hnt : c.status ≠ "True")
    (hfail : childFailsAt r api sh
        { st := s1, trace := w.trace ++ [Call.get Kind.sparkHistory req] } k e wf) :
    Reconcile r api req w =
      (Outcome.returned ({ requeue := false, requeueAfter := 0 }, some e), wf) ∧
    ∃ calls, wf.trace = w.trace ++ Call.get Kind.sparkHistory req :: calls ∧
      ∀ c ∈ calls, c.isStatusUpdate = false ∧ c.isList = false ∧
        ∀ k1 : Kind, k.order < k1.order → c.touches k1 = false := by
  cases k with
  | sparkHistory => exact absurd hfail (by simp [childFailsAt])
  | persistentVolumeClaim =>
    have hpvc : reconcilePVC r api sh
        { st := s1, trace := w.trace ++ [Call.get Kind.sparkHistory req] } =
          (Outcome.returned (some e), wf) := hfail
    constructor
    · unfold Reconcile SparkHistoryReconciler.Get
      simp only [hget, hcond, ConditionTrue, hnt, if_false]
      unfold reconcileChildren
      simp only [hpvc]
    · have hi := (children_issued r api sh _ wf _ _ _ _ _ _ _ hpvc rfl rfl rfl).1
      obtain ⟨calls, e1, a, _⟩ := issued_from_fetch w s1 req _ wf hi
      exact ⟨calls, e1, a⟩
  | deployment =>
    obtain ⟨w2, hpvc, hdep⟩ := hfail
    constructor
    · unfold Reconcile SparkHistoryReconciler.Get
      simp only [hget, hcond, ConditionTrue, hnt, if_false]
      unfold reconcileChildren
      simp only [hpvc, hdep]
    · have hi := (children_issued r api sh _ w2 wf _ _ _ _ _ _ hpvc hdep rfl rfl).2.1
      obtain ⟨calls, e1, a, _⟩ := issued_from_fetch w s1 req _ wf hi
      exact ⟨calls, e1, a⟩
  | service =>
    obtain ⟨w2, w3, hpvc, hdep, hsvc⟩ := hfail
    constructor
    · unfold Reconcile SparkHistoryReconciler.Get
      simp only [hget, hcond, ConditionTrue, hnt, if_false]
      unfold reconcileChildren
      simp only [hpvc, hdep, hsvc]
    · have hi := (children_issued r api sh _ w2 w3 wf _ _ _ _ _ hpvc hdep hsvc rfl).2.2.1
      obtain ⟨calls, e1, a, _⟩ := issued_from_fetch w s1 req _ wf hi
      exact ⟨calls, e1, a⟩
  | ingress =>
    obtain ⟨w2, w3, w4, hpvc, hdep, hsvc, hing⟩ := hfail
    constructor
    · unfold Reconcile SparkHistoryReconciler.Get
      simp only [hget, hcond, ConditionTrue, hnt, if_false]
      unfold reconcileChildren
      simp only [hpvc, hdep, hsvc, hing]
    · have hi := (children_issued r api sh _ w2 w3 w4 wf _ _ _ _ hpvc hdep hsvc hing).2.2.2
      obtain ⟨calls, e1, a, _⟩ := issued_from_fetch w s1 req _ wf hi
      exact ⟨calls, e1, a⟩

/-- Concrete run for C4: the claim exists, the Deployment is created, the create of the
Service fails. -/
theorem reconcile_fail_fast_witness :
    Reconcile (exReconciler serviceCreateFails okScheme) exApi exReq w0 =
      (Outcome.returned ({ requeue := false, requeueAfter := 0 }, some exErr),
       (reconcileService (exReconciler serviceCreateFails okScheme) exApi
          (exInstance resetStatus)
          (reconcileDeployment (exReconciler serviceCreateFails okScheme) exApi
            (exInstance resetStatus)
            (reconcilePVC (exReconciler serviceCreateFails okScheme) exApi
              (exInstance resetStatus)
              { st := 1, trace := w0.trace ++ [Call.get Kind.sparkHistory exReq] }).2).2).2) ∧
    ∃ calls,
      (reconcileService (exReconciler serviceCreateFails okScheme) exApi
          (exInstance resetStatus)
          (reconcileDeployment (exReconciler serviceCreateFails okScheme) exApi
            (exInstance resetStatus)
            (reconcilePVC (exReconciler serviceCreateFails okScheme) exApi
              (exInstance resetStatus)
              { st := 1, trace := w0.trace ++ [Call.get Kind.sparkHistory exReq] }).2).2).2.trace =
        w0.trace ++ Call.get Kind.sparkHistory exReq :: calls ∧
      ∀ c ∈ calls, c.isStatusUpdate = false ∧ c.isList = false ∧
        ∀ k1 : Kind, Kind.service.order < k1.order → c.touches k1 = false :=
  reconcile_fail_fast (exReconciler serviceCreateFails okScheme) exApi exReq w0
    (exInstance resetStatus) healthyFalse [] 1 Kind.service exErr _ rfl rfl (by decide)
    ⟨_, _, rfl, rfl, rfl⟩

/-- C5. Convergence: in a pass where the fetch succeeds, the first condition is not True, the
four child steps return nil and the pod list succeeds, if the listed pod names differ from
the stored Nodes then `Reconcile` issues, after the list, one status update whose Nodes is
the listed names in list order and whose first condition is True; it is the only status
update of the pass, and `Reconcile` returns `Result{}` (no requeue) with the error of that
update, nil when the update succeeds. -/
theorem reconcile_converges (r : SparkHistoryReconciler σ) (api : Api) (req : NamespacedName)
    (w : World σ) (sh : SparkHistory) (c : ComponentCondition) (cs : List ComponentCondition)
    (s1 : σ) (w2 w3 w4 w5 : World σ) (pods : List Pod) (s6 s7 : σ) (ures : Option Err)
    (hget : r.client.getSparkHistory w.st req = (Except.ok sh, s1))
    (hcond : sh.status.conditions.toList = c :: cs)
    (hnt : c.status ≠ "True")
    (hpvc : reconcilePVC r api sh
        { st := s1, trace := w.trace ++ [Call.get Kind.sparkHistory req] } =
          (Outcome.returned none, w2))
    (hdep : reconcileDeployment r api sh w2 = (none, w3))
    (hsvc : reconcileService r api sh w3 = (none, w4))
    (hing : reconcileIngress r api sh w4 = (none, w5))
    (hlist : r.client.list w5.st sh.ns (api.GetLabels sh) = (Except.ok pods, s6))
    (hdiff : pods.map Pod.name ≠ sh.status.nodes.toList)
    (hupd : r.client.statusUpdate s6
        { sh with status :=
            { nodes := getPodNames pods
              conditions := Slice.mk ({ c with status := "True" } :: cs) } } = (ures, s7)) :
    Reconcile r api req w =
      (Outcome.returned ({ requeue := false, requeueAfter := 0 }, ures),
       { st := s7
         trace := w5.trace ++
           [Call.list sh.ns (api.GetLabels sh),
            Call.statusUpdate
              { sh with status :=
                  { nodes := getPodNames pods
                    conditions := Slice.mk ({ c with status := "True" } :: cs) } }] }) ∧
    statusUpdates (newCalls w (Reconcile r api req w).2) =
      [{ sh with status :=
          { nodes := getPodNames pods
            conditions := Slice.mk ({ c with status := "True" } :: cs) } }] ∧
    (getPodNames pods).toList = pods.map Pod.name := by
  have hrun := reconcile_reaches_postCheck r api req w sh c cs s1 w2 w3 w4 w5 hget hcond hnt
    hpvc hdep hsvc hing
  have hpost := postCheck_write r api sh c cs w5 pods s6 s7 ures hlist
    (deepEqual_false_of_names_ne pods sh.status.nodes hdiff) hupd
  have hi := (children_issued r api sh _ w2 w3 w4 w5 _ _ _ _ hpvc hdep hsvc hing).2.2.2
  obtain ⟨calls, e1, _, hsu⟩ := issued_from_fetch w s1 req _ w5 hi
  refine ⟨hrun.trans hpost, ?_, getPodNames_toList pods⟩
  rw [hrun, hpost]
  have htr : w5.trace ++
      [Call.list sh.ns (api.GetLabels sh),
       Call.statusUpdate
         { sh with status :=
             { nodes := getPodNames pods
               conditions := Slice.mk ({ c with status := "True" } :: cs) } }] =
      w.trace ++ ((Call.get Kind.sparkHistory req :: calls) ++
        [Call.list sh.ns (api.GetLabels sh),
         Call.statusUpdate
           { sh with status :=
               { nodes := getPodNames pods
                 conditions := Slice.mk ({ c with status := "True" } :: cs) } }]) := by
    rw [e1, List.append_assoc]
  rw [newCalls_append w _ _ htr, statusUpdates_append, hsu]
  rfl

/-- Concrete run for C5: stored nodes empty, listed pods pod-a and pod-b. -/
theorem reconcile_converges_witness :
    statusUpdates (newCalls w0 (Reconcile (exRun resetStatus podsAB okScheme) exApi exReq w0).2) =
      [exInstance { nodes := Slice.mk ["pod-a", "pod-b"],
                    conditions := Slice.mk [healthyTrue] }] ∧
    (getPodNames podsAB).toList = ["pod-a", "pod-b"] :=
  (reconcile_converges (exRun resetStatus podsAB okScheme) exApi exReq w0
    (exInstance resetStatus) healthyFalse [] 1 _ _ _ _ podsAB _ _ none
    rfl rfl (by decide) rfl rfl rfl rfl rfl (by decide) rfl).2

/-- C6, as stated, fails: with stored nodes pod-a, pod-b and listed pods pod-b, pod-a (a
permutation of the stored nodes) the pass reaches the post-check, issues the pod list and
then a status update that writes the nodes in the listed order and the condition True. -/
theorem reconcile_permuted_nodes_written :
    List.Perm (podsBA.map Pod.name) statusAB.nodes.toList ∧
    Call.list "default" [("app", "sh")] ∈
      newCalls w0 (Reconcile (exRun statusAB podsBA okScheme) exApi exReq w0).2 ∧
    statusUpdates (newCalls w0 (Reconcile (exRun statusAB podsBA okScheme) exApi exReq w0).2) =
      [exInstance { nodes := Slice.mk ["pod-b", "pod-a"],
                    conditions := Slice.mk [healthyTrue] }] :=
  ⟨List.Perm.swap _ _ _, by decide, by decide⟩

/-- C6, amended. Member comparison is an order-sensitive comparison of sequences: in a pass
that reaches the post-check (fetch succeeded, first condition not True, four child steps
returned nil, pod list succeeded) with at least one listed pod, `Reconcile` issues no status
update when the listed pod names equal the stored Nodes element for element in the same
order, and otherwise, also for a reordering of the same members, exactly one status update
that writes the listed names and the first condition True. -/
theorem reconcile_member_comparison_ordered (r : SparkHistoryReconciler σ) (api : Api)
    (req : NamespacedName) (w : World σ) (sh : SparkHistory) (c : ComponentCondition)
    (cs : List ComponentCondition) (s1 : σ) (w2 w3 w4 w5 : World σ) (pods : List Pod) (s6 : σ)
    (hget : r.client.getSparkHistory w.st req = (Except.ok sh, s1))
    (hcond : sh.status.conditions.toList = c :: cs)
    (hnt : c.status ≠ "True")
    (hpvc : reconcilePVC r api sh
        { st := s1, trace := w.trace ++ [Call.get Kind.sparkHistory req] } =
          (Outcome.returned none, w2))
    (hdep : reconcileDeployment r api sh w2 = (none, w3))
    (hsvc : reconcileService r api sh w3 = (none, w4))
    (hing : reconcileIngress r api sh w4 = (none, w5))
    (hlist : r.client.list w5.st sh.ns (api.GetLabels sh) = (Except.ok pods, s6))
    (hne : pods ≠ []) :
    statusUpdates (newCalls w (Reconcile r api req w).2) =
      if pods.map Pod.name = sh.status.nodes.toList then []
      else [{ sh with status :=
                { nodes := Slice.mk (pods.map Pod.name)
                  conditions := Slice.mk ({ c with status := "True" } :: cs) } }] := by
  have hrun := reconcile_reaches_postCheck r api req w sh c cs s1 w2 w3 w4 w5 hget hcond hnt
    hpvc hdep hsvc hing
  have hi := (children_issued r api sh _ w2 w3 w4 w5 _ _ _ _ hpvc hdep hsvc hing).2.2.2
  obtain ⟨calls, e1, _, hsu⟩ := issued_from_fetch w s1 req _ w5 hi
  have hnames : getPodNames pods = Slice.mk (pods.map Pod.name) := by
    cases pods with
    | nil => exact absurd rfl hne
    | cons p ps => exact getPodNames_cons p ps
  by_cases heq : pods.map Pod.name = sh.status.nodes.toList
  · have hde := (deepEqual_getPodNames_of_ne_nil pods sh.status.nodes hne).mpr heq
    have hpost := postCheck_skip r api sh c cs w5 pods s6 hlist hde
    have htr : w5.trace ++ [Call.list sh.ns (api.GetLabels sh)] =
        w.trace ++ ((Call.get Kind.sparkHistory req :: calls) ++
          [Call.list sh.ns (api.GetLabels sh)]) := by
      rw [e1, List.append_assoc]
    rw [hrun, hpost, if_pos heq, newCalls_append w _ _ htr, statusUpdates_append, hsu]
    rfl
  · have hde := deepEqual_false_of_names_ne pods sh.status.nodes heq
    have hpost := postCheck_write r api sh c cs w5 pods s6 _ _ hlist hde rfl
    have htr : w5.trace ++
        [Call.list sh.ns (api.GetLabels sh),
         Call.statusUpdate
           { sh with status :=
               { nodes := getPodNames pods
                 conditions := Slice.mk ({ c with status := "True" } :: cs) } }] =
        w.trace ++ ((Call.get Kind.sparkHistory req :: calls) ++
          [Call.list sh.ns (api.GetLabels sh),
           Call.statusUpdate
             { sh with status :=
                 { nodes := getPodNames pods
                   conditions := Slice.mk ({ c with status := "True" } :: cs) } }]) := by
      rw [e1, List.append_assoc]
    rw [hrun, hpost, if_neg heq, newCalls_append w _ _ htr, statusUpdates_append, hsu, hnames]
    rfl

/-- Concrete run for the amended C6: stored pod-a, pod-b and listed pod-b, pod-a. -/
theorem reconcile_member_comparison_ordered_witness :
    statusUpdates (newCalls w0 (Reconcile (exRun statusAB podsBA okScheme) exApi exReq w0).2) =
      if podsBA.map Pod.name = (exInstance statusAB).status.nodes.toList then []
      else [{ exInstance statusAB with status :=
                { nodes := Slice.mk (podsBA.map Pod.name)
                  conditions := Slice.mk ({ healthyFalse with status := "True" } :: []) } }] :=
  reconcile_member_comparison_ordered (exRun statusAB podsBA okScheme) exApi exReq w0
    (exInstance statusAB) healthyFalse [] 1 _ _ _ _ podsBA _
    rfl rfl (by decide) rfl rfl rfl rfl rfl (by decide)

/-- C7. Skip-not-abort for the apply-engine children: when `SetControllerReference` fails on
the object that the builder of one of the steps Deployment, Service, Ingress is building, the
builder returns no object and the step returns nil in every world without issuing any call
(so the apply primitive is not called). In a pass that reaches child reconciliation, where
the PVC step returned nil and every other one of the three steps returned nil, `Reconcile`
then runs on to the post-check in the world the Ingress step left: the pod list is the next
call issued. -/
theorem reconcile_skips_unstamped_child (r : SparkHistoryReconciler σ) (api : Api)
    (req : NamespacedName) (w : World σ) (sh : SparkHistory) (c : ComponentCondition)
    (cs : List ComponentCondition) (s1 : σ) (w2 w3 w4 w5 : World σ) (rd rs ri : Option Err)
    (step : ApplyStep) (e : Err)
    (hget : r.client.getSparkHistory w.st req = (Except.ok sh, s1))
    (hcond : sh.status.conditions.toList = c :: cs)
    (hnt : c.status ≠ "True")
    (hscr : r.scheme.SetControllerReference sh (step.builtMeta api sh) = Except.error e)
    (hpvc : reconcilePVC r api sh
        { st := s1, trace := w.trace ++ [Call.get Kind.sparkHistory req] } =
          (Outcome.returned none, w2))
    (hdep : reconcileDeployment r api sh w2 = (rd, w3))
    (hsvc : reconcileService r api sh w3 = (rs, w4))
    (hing : reconcileIngress r api sh w4 = (ri, w5))
    (hothers : (step ≠ ApplyStep.deployment → rd = none) ∧
      (step ≠ ApplyStep.service → rs = none) ∧ (step ≠ ApplyStep.ingress → ri = none)) :
    step.build api sh r.scheme = none ∧
    (∀ w1 : World σ, step.run r api sh w1 = (none, w1)) ∧
    Reconcile r api req w = postCheck r api sh c cs w5 ∧
    ∃ rest, (Reconcile r api req w).2.trace =
      w5.trace ++ Call.list sh.ns (api.GetLabels sh) :: rest := by
  have hbuild : step.build api sh r.scheme = none := by
    cases step
    · simp only [ApplyStep.build, makeDeployment]
      simp only [ApplyStep.builtMeta] at hscr
      simp only [hscr, Option.map]
    · simp only [ApplyStep.build, makeService]
      simp only [ApplyStep.builtMeta] at hscr
      simp only [hscr, Option.map]
    · simp only [ApplyStep.build, makeIngress]
      simp only [ApplyStep.builtMeta] at hscr
      simp only [hscr, Option.map]
  have hstep : ∀ w1 : World σ, step.run r api sh w1 = (none, w1) := by
    intro w1
    cases step
    · have hm : makeDeployment api sh r.scheme = none := by
        simpa [ApplyStep.build] using hbuild
      simp only [ApplyStep.run, reconcileDeployment, hm]
    · have hm : makeService api sh r.scheme = none := by
        simpa [ApplyStep.build] using hbuild
      simp only [ApplyStep.run, reconcileService, hm]
    · have hm : makeIngress api sh r.scheme = none := by
        simpa [ApplyStep.build] using hbuild
      simp only [ApplyStep.run, reconcileIngress, hm]
  have hrd : rd = none := by
    by_cases h : step = ApplyStep.deployment
    · subst h
      have := hstep w2
      simp only [ApplyStep.run, hdep] at this
      exact (Prod.mk.inj this).1
    · exact hothers.1 h
  have hrs : rs = none := by
    by_cases h : step = ApplyStep.service
    · subst h
      have := hstep w3
      simp only [ApplyStep.run, hsvc] at this
      exact (Prod.mk.inj this).1
    · exact hothers.2.1 h
  have hri : ri = none := by
    by_cases h : step = ApplyStep.ingress
    · subst h
      have := hstep w4
      simp only [ApplyStep.run, hing] at this
      exact (Prod.mk.inj this).1
    · exact hothers.2.2 h
  subst hrd hrs hri
  have hrun := reconcile_reaches_postCheck r api req w sh c cs s1 w2 w3 w4 w5 hget hcond hnt
    hpvc hdep hsvc hing
  refine ⟨hbuild, hstep, hrun, ?_⟩
  rw [hrun]
  exact postCheck_lists r api sh c cs w5

/-- Concrete run for C7: the claim exists and the scheme cannot stamp the owner, so the
Deployment step (and with it the Service and Ingress steps) is skipped and the pods are
listed right after the get of the claim. -/
theorem reconcile_skips_unstamped_child_witness :
    ApplyStep.deployment.build exApi (exInstance resetStatus) badScheme = none ∧
    (∀ w1 : World Nat, ApplyStep.deployment.run (exRun resetStatus podsAB badScheme) exApi
        (exInstance resetStatus) w1 = (none, w1)) ∧
    Reconcile (exRun resetStatus podsAB badScheme) exApi exReq w0 =
      postCheck (exRun resetStatus podsAB badScheme) exApi (exInstance resetStatus)
        healthyFalse []
        { st := 2
          trace := [Call.get Kind.sparkHistory exReq,
                    Call.get Kind.persistentVolumeClaim { ns := "default", name := "sh" }] } ∧
    ∃ rest, (Reconcile (exRun resetStatus podsAB badScheme) exApi exReq w0).2.trace =
      [Call.get Kind.sparkHistory exReq,
       Call.get Kind.persistentVolumeClaim { ns := "default", name := "sh" }] ++
        Call.list "default" [("app", "sh")] :: rest :=
  reconcile_skips_unstamped_child (exRun resetStatus podsAB badScheme) exApi exReq w0
    (exInstance resetStatus) healthyFalse [] 1
    { st := 2
      trace := [Call.get Kind.sparkHistory exReq,
                Call.get Kind.persistentVolumeClaim { ns := "default", name := "sh" }] }
    _ _ _ none none none ApplyStep.deployment
    { notFound := false, msg := "no kind is registered" }
    rfl rfl (by decide) rfl rfl rfl rfl rfl ⟨fun _ => rfl, fun _ => rfl, fun _ => rfl⟩

/-- C10, as stated, fails on the code. Stored status as the first-sight pass writes it (nodes
the empty non-nil list, condition Healthy/False), every child step succeeds and no pod is
listed: the listed names and the stored nodes are the same (empty) list, yet `getPodNames`
returns the nil slice, which is not deeply equal to the stored empty slice, and the pass
issues a status update that writes nil nodes and flips the condition to True. -/
theorem reconcile_no_pods_after_reset_writes :
    (getPodNames ([] : List Pod)).toList = (exInstance resetStatus).status.nodes.toList ∧
    (Reconcile (exRun resetStatus [] okScheme) exApi exReq w0).1 =
      Outcome.returned ({ requeue := false, requeueAfter := 0 }, none) ∧
    statusUpdates (newCalls w0 (Reconcile (exRun resetStatus [] okScheme) exApi exReq w0).2) =
      [exInstance { nodes := Slice.nil, conditions := Slice.mk [healthyTrue] }] :=
  ⟨rfl, by decide, by decide⟩

end Theorems

end Controller
